import Mathlib

/- Verification development for the Rainfall-app repository.

   The repository contains two Streamlit scripts:

   * rainfallapp_up.py : the GHMC dashboard.  Its computational core
     (lines 134-168 and 398-414) parses readings, builds a daily
     aggregate table, segments rain events with a diff/cumsum pass over
     the station-sorted table, and derives per-station rainy-day counts
     for months and seasons.
   * rainfall_app.py : a simpler single-station analyzer (lines 22-57)
     with a threshold slider, a gap-hours slider, per-station
     diff/cumsum segmentation and an event summary whose duration is
     wall-clock based.

   Readings are embedded with natural-number station identifiers and
   timestamps (hours since an epoch; the calendar date of a reading is
   time / 24, the calendar month of a date is date / 31 + 1) and
   rational rainfall amounts.  Group keys of a pandas groupby are taken
   here in first-occurrence order; pandas sorts them, but every
   statement below is either order-insensitive or evaluated on inputs
   where the two orders coincide. -/

namespace Rainfall

/-- Keep the first occurrence of every element of a list, dropping later
    duplicates: the set of group keys of a groupby. -/
def dedupFirst {α : Type} [DecidableEq α] : List α → List α
  | [] => []
  | a :: as => a :: (dedupFirst as).filter (fun x => decide (x ≠ a))

/-- Sum of a list of rationals (a pandas "sum" aggregation). -/
def qsum (l : List ℚ) : ℚ := l.foldr (fun a b => a + b) 0

/-- Maximum of a list of rationals (a pandas "max" aggregation); the
    empty case never arises for a groupby group. -/
def qmax : List ℚ → ℚ
  | [] => 0
  | x :: xs => xs.foldl max x

/-- Minimum of a list of naturals (a pandas "min" aggregation). -/
def nmin : List ℕ → ℕ
  | [] => 0
  | x :: xs => xs.foldl min x

/-- Maximum of a list of naturals. -/
def nmax : List ℕ → ℕ
  | [] => 0
  | x :: xs => xs.foldl max x

/- ===================================================================
   Part 1: rainfallapp_up.py (the GHMC dashboard engine)
   =================================================================== -/

/-- One normalized reading: a row of df after the preprocessing of
    lines 134-140 (AWS_ID, DateTime, Hourly_Rain). -/
structure Reading where
  station : ℕ
  time : ℕ
  rain : ℚ
deriving DecidableEq

/-- Sort key of df.sort_values(["AWS_ID", "DateTime"]) (line 155). -/
def readingLE (a b : Reading) : Bool :=
  decide (a.station < b.station ∨ (a.station = b.station ∧ a.time ≤ b.time))

def insertReading (r : Reading) : List Reading → List Reading
  | [] => [r]
  | x :: xs => if readingLE r x then r :: x :: xs else x :: insertReading r xs

/-- df_sorted = df.sort_values(["AWS_ID", "DateTime"]) (line 155). -/
def sortReadings : List Reading → List Reading
  | [] => []
  | r :: rs => insertReading r (sortReadings rs)

/-- RainFlag column (line 156): (Hourly_Rain > 0).astype(int). -/
def RainFlag (r : Reading) : Bool := decide (0 < r.rain)

/-- One pass producing the EventStart/EventID columns of lines 157-158:
    EventStart = (RainFlag.diff().fillna(0) == 1), so a row starts an
    event exactly when it is wet and the previous row is dry;
    EventID = EventStart.cumsum() * RainFlag, so a dry row carries id 0.
    `prev` is the previous row's RainFlag and `c` the running cumsum.
    The initial call passes prev = true because diff().fillna(0) can
    never equal 1 at the first row of the table. -/
def assignAux (prev : Bool) (c : ℕ) : List Reading → List (Reading × ℕ)
  | [] => []
  | r :: rs =>
    let f := RainFlag r
    let c' := if f && !prev then c + 1 else c
    (r, if f then c' else 0) :: assignAux f c' rs

/-- The EventID assignment over the whole station-sorted table. -/
def assignEventIDs (rs : List Reading) : List (Reading × ℕ) :=
  assignAux true 0 rs

/-- A row of the events table (lines 160-168). -/
structure Event where
  station : ℕ
  eventID : ℕ
  start : ℕ
  endTime : ℕ
  durationHrs : ℕ
  totalRain : ℚ
  maxHourly : ℚ
  averageIntensity : ℚ
deriving DecidableEq

/-- The member readings of the groupby group keyed by
    (AWS_ID, EventID) = k. -/
def eventGroup (l : List (Reading × ℕ)) (k : ℕ × ℕ) : List Reading :=
  (l.filter (fun p => decide (p.1.station = k.1 ∧ p.2 = k.2))).map (fun p => p.1)

/-- One aggregated event row (lines 160-168): Start = min DateTime,
    End = max DateTime, Duration_hrs = count, Total_Rain = sum,
    Max_Hourly = max, Average_Intensity = Total_Rain / Duration_hrs
    (the division on line 168 is unguarded). -/
def mkEvent (l : List (Reading × ℕ)) (k : ℕ × ℕ) : Event :=
  let g := eventGroup l k
  { station := k.1
    eventID := k.2
    start := nmin (g.map (fun r => r.time))
    endTime := nmax (g.map (fun r => r.time))
    durationHrs := g.length
    totalRain := qsum (g.map (fun r => r.rain))
    maxHourly := qmax (g.map (fun r => r.rain))
    averageIntensity := qsum (g.map (fun r => r.rain)) / (g.length : ℚ) }

/-- events = df_sorted[df_sorted.EventID > 0].groupby([... , EventID])
    aggregated (lines 160-168). -/
def eventTable (rs : List Reading) : List Event :=
  let l := assignEventIDs (sortReadings rs)
  let keys := dedupFirst ((l.filter (fun p => decide (0 < p.2))).map
    (fun p => (p.1.station, p.2)))
  keys.map (mkEvent l)

/-- The rows of df_sorted that belong to some event (EventID > 0): the
    union of all event member-sample sets, since the event groupby
    partitions exactly these rows by (AWS_ID, EventID). -/
def wetAssignedReadings (rs : List Reading) : List Reading :=
  ((assignEventIDs (sortReadings rs)).filter (fun p => decide (0 < p.2))).map
    (fun p => p.1)

/-- A row of the daily table (lines 145-153). -/
structure DailyRow where
  station : ℕ
  date : ℕ
  dailyRainfall : ℚ
  maxHourlyRain : ℚ
  hoursRained : ℕ
  dailyIntensity : ℚ
deriving DecidableEq

/-- df["Date"] = df["DateTime"].dt.date (line 137). -/
def dayOf (r : Reading) : ℕ := r.time / 24

/-- The member readings of the daily groupby group keyed by
    (AWS_ID, Date) = k. -/
def dailyGroup (rs : List Reading) (k : ℕ × ℕ) : List Reading :=
  rs.filter (fun r => decide (r.station = k.1 ∧ dayOf r = k.2))

/-- One aggregated daily row (lines 145-153): Daily_Rainfall = sum,
    Max_Hourly_Rain = max, Hours_Rained = (x > 0).sum(), and the
    guarded Daily_Intensity of lines 151-153 which is 0 whenever
    Hours_Rained is 0. -/
def mkDaily (rs : List Reading) (k : ℕ × ℕ) : DailyRow :=
  let g := dailyGroup rs k
  let hr := ((g.map (fun r => r.rain)).filter (fun x => decide (0 < x))).length
  { station := k.1
    date := k.2
    dailyRainfall := qsum (g.map (fun r => r.rain))
    maxHourlyRain := qmax (g.map (fun r => r.rain))
    hoursRained := hr
    dailyIntensity :=
      if 0 < hr then qsum (g.map (fun r => r.rain)) / (hr : ℚ) else 0 }

/-- daily = df.groupby([... , Date]).agg(...) (lines 145-153). -/
def dailyTable (rs : List Reading) : List DailyRow :=
  (dedupFirst (rs.map (fun r => (r.station, dayOf r)))).map (mkDaily rs)

/-- RainDay column of the station analysis (line 400):
    (Daily_Rainfall > 0).astype(int). -/
def RainDay (d : DailyRow) : Bool := decide (0 < d.dailyRainfall)

/-- Calendar month of a date in the embedded time model. -/
def monthOf (d : ℕ) : ℕ := d / 31 + 1

inductive Season
  | winter
  | preMonsoon
  | monsoon
  | postMonsoon
deriving DecidableEq

/-- get_season of lines 402-410: months 1,2 -> Winter; 3,4,5 ->
    Pre-Monsoon; 6,7,8 -> Monsoon; otherwise Post-Monsoon. -/
def get_season (m : ℕ) : Season :=
  if m = 1 ∨ m = 2 then Season.winter
  else if m = 3 ∨ m = 4 ∨ m = 5 then Season.preMonsoon
  else if m = 6 ∨ m = 7 ∨ m = 8 then Season.monsoon
  else Season.postMonsoon

/-- daily_station = daily[daily.AWS_ID == station] (line 383). -/
def stationDaily (st : ℕ) (rs : List Reading) : List DailyRow :=
  (dailyTable rs).filter (fun d => decide (d.station = st))

/-- monthly_rain_days (line 413): the RainDay flags summed per month
    (a sum of 0/1 flags, i.e. a count of rain days). -/
def monthlyRainyDays (st : ℕ) (rs : List Reading) : List (ℕ × ℕ) :=
  let ds := stationDaily st rs
  (dedupFirst (ds.map (fun d => monthOf d.date))).map
    (fun m => (m, (ds.filter (fun d => decide (monthOf d.date = m) && RainDay d)).length))

/-- seasonal_rain_days (line 414): the RainDay flags summed per season. -/
def seasonalRainyDays (st : ℕ) (rs : List Reading) : List (Season × ℕ) :=
  let ds := stationDaily st rs
  (dedupFirst (ds.map (fun d => get_season (monthOf d.date)))).map
    (fun s => (s, (ds.filter
      (fun d => decide (get_season (monthOf d.date) = s) && RainDay d)).length))

/- ===================================================================
   Part 2: rainfall_app.py (the single-station analyzer)
   =================================================================== -/

/-- One sample of the selected station (rows of df_station). -/
structure Sample where
  time : ℕ
  rain : ℚ
deriving DecidableEq

def insertSample (s : Sample) : List Sample → List Sample
  | [] => [s]
  | x :: xs => if s.time ≤ x.time then s :: x :: xs else x :: insertSample s xs

/-- df_station.sort_values("datetime") (line 34). -/
def sortSamples : List Sample → List Sample
  | [] => []
  | s :: ss => insertSample s (sortSamples ss)

/-- rain_event column (line 42): (rainfall > threshold).astype(int). -/
def rain_event (thr : ℚ) (s : Sample) : Bool := decide (thr < s.rain)

/-- event_id assignment of lines 43-44:
    event_id = (rain_event.diff().fillna(0) == 1).cumsum(), and dry
    rows are set to None afterwards.  As in the dashboard variant,
    diff().fillna(0) never marks the first row, encoded by the initial
    prev = true; the leading wet run therefore receives id 0, and here
    it is kept (the groupby only drops the None rows). -/
def appAssignAux (thr : ℚ) (prev : Bool) (c : ℕ) :
    List Sample → List (Sample × Option ℕ)
  | [] => []
  | s :: ss =>
    let f := rain_event thr s
    let c' := if f && !prev then c + 1 else c
    (s, if f then some c' else none) :: appAssignAux thr f c' ss

def appAssign (thr : ℚ) (rs : List Sample) : List (Sample × Option ℕ) :=
  appAssignAux thr true 0 (sortSamples rs)

/-- A row of the events summary (lines 47-57); reset_index(drop=True)
    drops the event_id from the output. -/
structure AppEvent where
  startTime : ℕ
  endTime : ℕ
  totalRainfall : ℚ
  durationHours : ℕ
deriving DecidableEq

/-- Member samples of the event_id = e group. -/
def appEventMembers (thr : ℚ) (rs : List Sample) (e : ℕ) : List Sample :=
  ((appAssign thr rs).filter (fun p => decide (p.2 = some e))).map (fun p => p.1)

/-- events = df_station.dropna(subset=["event_id"]).groupby("event_id")
    aggregated (lines 47-57): start_time = min datetime, end_time = max
    datetime, total_rainfall = sum, and duration_hours =
    (max - min).total_seconds()/3600 + 1, i.e. elapsed hours plus one,
    NOT the member count. -/
def appEvents (thr : ℚ) (rs : List Sample) : List AppEvent :=
  let keyed := (appAssign thr rs).filterMap (fun p => p.2)
  (dedupFirst keyed).map (fun e =>
    let g := appEventMembers thr rs e
    { startTime := nmin (g.map (fun s => s.time))
      endTime := nmax (g.map (fun s => s.time))
      totalRainfall := qsum (g.map (fun s => s.rain))
      durationHours :=
        nmax (g.map (fun s => s.time)) - nmin (g.map (fun s => s.time)) + 1 })

/-- rainfall_app.py line 40 reads gap_hours from a slider, but lines
    42-57 never use it: segmentation and aggregation ignore the
    supplied value entirely. -/
def appEventsWithGap (gapHours : ℕ) (thr : ℚ) (rs : List Sample) :
    List AppEvent :=
  appEvents thr rs

/- ===================================================================
   Part 3: schema handling (both scripts)
   =================================================================== -/

/-- A raw CSV row before normalization.  timeOk models whether the
    timestamp parses (pd.to_datetime with errors="coerce"); rainOk
    models whether the rainfall value is numeric. -/
structure RawRow where
  station : ℕ
  timeOk : Bool
  time : ℕ
  rainOk : Bool
  rain : ℚ

/-- A raw uploaded CSV: which mandatory columns are present, plus the
    rows. -/
structure RawCSV where
  hasStationCol : Bool
  hasTimeCol : Bool
  rows : List RawRow

inductive SchemaError
  | missingColumn
deriving DecidableEq

/-- The readings that survive row-level normalization: rows whose
    timestamp fails to parse are dropped (to_datetime errors="coerce"
    followed by dropna, rainfall_app.py lines 23-24 and
    rainfallapp_up.py lines 135-136), and non-numeric rainfall is
    coerced to 0 (pd.to_numeric errors="coerce" followed by fillna(0),
    rainfallapp_up.py line 140). -/
def parsedReadings (csv : RawCSV) : List Reading :=
  (csv.rows.filter (fun r => r.timeOk)).map
    (fun r => { station := r.station, time := r.time,
                rain := if r.rainOk then r.rain else 0 })

/-- Column handling of both scripts.  rainfall_app.py lines 22-27
    checks the date/hour columns explicitly and calls st.stop();
    accessing a missing station column (df["station_id"], line 30) or,
    in rainfallapp_up.py, a missing "Date_&_Time" or "AWS_ID" column
    (lines 135, 155) raises an uncaught KeyError.  Either way the run
    aborts before any summary table is built, which is modelled as the
    SchemaError result; row-level problems only filter rows and never
    abort. -/
def normalize (csv : RawCSV) : Except SchemaError (List Reading) :=
  if csv.hasTimeCol = false then Except.error SchemaError.missingColumn
  else if csv.hasStationCol = false then Except.error SchemaError.missingColumn
  else Except.ok (parsedReadings csv)

/-- The full dashboard run: normalization followed by the daily and
    event tables; no table is emitted when normalization fails. -/
def runPipeline (csv : RawCSV) :
    Except SchemaError (List DailyRow × List Event) :=
  (normalize csv).map (fun rs => (dailyTable rs, eventTable rs))

/- ===================================================================
   Part 4: definitions that follow the spec's words (no corresponding
   computation exists in the source; used to refute the claims that
   assert they do)
   =================================================================== -/

/-- Follows the spec's words for the daily minimum strictly-positive
    hourly value (section 4.3: the minimum strictly-positive value, 0
    when no positive sample exists).  The source computes no such
    quantity. -/
def specMinPositive (l : List ℚ) : ℚ :=
  match l.filter (fun x => decide (0 < x)) with
  | [] => 0
  | x :: xs => xs.foldl min x

/-- Follows the spec's words for longest_wet_spell_days (section 4.5):
    scan the is-rain-day sequence keeping a counter that increments on
    true and resets to 0 on false, tracking the running maximum.  The
    source computes no such statistic. -/
def specLongestWetSpell (flags : List Bool) : ℕ :=
  (flags.foldl
    (fun (s : ℕ × ℕ) b => if b then (s.1 + 1, max s.2 (s.1 + 1)) else (0, s.2))
    ((0, 0) : ℕ × ℕ)).2

/- ===================================================================
   Part 5: concrete inputs
   =================================================================== -/

/-- The spec's concrete scenario: one station, hourly samples
    [0,0,2,3,0,5,0,0,1,1,1,0] starting at hour 0 of a single date. -/
def ex9 : List Reading :=
  [⟨0, 0, 0⟩, ⟨0, 1, 0⟩, ⟨0, 2, 2⟩, ⟨0, 3, 3⟩, ⟨0, 4, 0⟩, ⟨0, 5, 5⟩,
   ⟨0, 6, 0⟩, ⟨0, 7, 0⟩, ⟨0, 8, 1⟩, ⟨0, 9, 1⟩, ⟨0, 10, 1⟩, ⟨0, 11, 0⟩]

/-- Two stations: station 0 begins with a wet sample and has a second
    wet run; station 1 has a single wet run after a dry sample. -/
def exC1 : List Reading :=
  [⟨0, 0, 1⟩, ⟨0, 1, 0⟩, ⟨0, 2, 2⟩, ⟨1, 0, 0⟩, ⟨1, 1, 3⟩]

/-- One station whose series begins with a wet sample. -/
def exC2 : List Reading :=
  [⟨0, 0, 2⟩, ⟨0, 1, 0⟩, ⟨0, 2, 3⟩]

/-- Two single-day inputs with the same sum, maximum and positive-count
    but different minimum positive values. -/
def exA : List Reading := [⟨0, 0, 1⟩, ⟨0, 1, 4⟩, ⟨0, 2, 4⟩]

def exB : List Reading := [⟨0, 0, 2⟩, ⟨0, 1, 3⟩, ⟨0, 2, 4⟩]

/-- Three consecutive dates with rain-day patterns [1,0,1] and [1,1,0]:
    the same monthly and seasonal rainy-day counts, different longest
    wet spells. -/
def exW1 : List Reading := [⟨0, 0, 1⟩, ⟨0, 24, 0⟩, ⟨0, 48, 1⟩]

def exW2 : List Reading := [⟨0, 0, 1⟩, ⟨0, 24, 1⟩, ⟨0, 48, 0⟩]

/-- Two wet samples five hours apart with nothing in between: one
    contiguous run of two rows, spanning six wall-clock hours. -/
def ex3 : List Sample := [⟨0, 2⟩, ⟨5, 3⟩]

/-- Two one-sample wet runs separated by a single dry hour. -/
def exGap : List Sample := [⟨0, 2⟩, ⟨1, 0⟩, ⟨2, 3⟩]

/- Small evaluation helpers for simp. -/

@[simp] theorem decide_none_eq_some {α : Type} [DecidableEq α] (a : α) :
    decide ((none : Option α) = some a) = false := by
  simp

@[simp] theorem decide_some_eq_some {α : Type} [DecidableEq α] (a b : α) :
    decide (some a = some b) = decide (a = b) := by
  by_cases h : a = b <;> simp [h]

/- ===================================================================
   Part 6: general lemmas about the embedded pipeline
   =================================================================== -/

theorem mem_dedupFirst {α : Type} [DecidableEq α] (x : α) :
    ∀ l : List α, x ∈ dedupFirst l ↔ x ∈ l := by
  intro l
  induction l with
  | nil => simp [dedupFirst]
  | cons a as ih =>
    simp only [dedupFirst, List.mem_cons, List.mem_filter, decide_eq_true_eq]
    constructor
    · rintro (h | ⟨h, _⟩)
      · exact Or.inl h
      · exact Or.inr (ih.mp h)
    · rintro (h | h)
      · exact Or.inl h
      · by_cases hx : x = a
        · exact Or.inl hx
        · exact Or.inr ⟨ih.mpr h, hx⟩

theorem nodup_dedupFirst {α : Type} [DecidableEq α] :
    ∀ l : List α, (dedupFirst l).Nodup := by
  intro l
  induction l with
  | nil => simp [dedupFirst]
  | cons a as ih =>
    refine List.Nodup.cons ?_ (ih.filter _)
    intro hmem
    rcases List.mem_filter.mp hmem with ⟨-, hne⟩
    exact (decide_eq_true_eq.mp hne) rfl

theorem qsum_pos : ∀ l : List ℚ, l ≠ [] → (∀ x ∈ l, 0 < x) → 0 < qsum l := by
  intro l hne hpos
  induction l with
  | nil => exact absurd rfl hne
  | cons x xs ih =>
    have hx : 0 < x := hpos x (List.mem_cons_self x xs)
    cases xs with
    | nil => simpa [qsum] using hx
    | cons y ys =>
      have hs : 0 < qsum (y :: ys) :=
        ih (List.cons_ne_nil y ys) (fun z hz => hpos z (List.mem_cons_of_mem x hz))
      have : qsum (x :: y :: ys) = x + qsum (y :: ys) := rfl
      rw [this]
      exact add_pos hx hs

/-- Every dry row of the table gets event id 0 (EventID = cumsum * RainFlag
    vanishes when RainFlag is 0). -/
theorem assignAux_dry_zero :
    ∀ (rs : List Reading) (prev : Bool) (c : ℕ),
      ∀ p ∈ assignAux prev c rs, ¬(0 < p.1.rain) → p.2 = 0 := by
  intro rs
  induction rs with
  | nil => intro prev c p hp; simp [assignAux] at hp
  | cons r rs ih =>
    intro prev c p hp hdry
    simp only [assignAux, List.mem_cons] at hp
    rcases hp with hp | hp
    · subst hp
      simp only []
      have hf : RainFlag r = false := by
        simp only [RainFlag, decide_eq_false_iff_not]
        simpa using hdry
      simp [hf]
    · exact ih _ _ p hp hdry

/-- Every row with a positive event id is wet. -/
theorem assignAux_pos_wet :
    ∀ (rs : List Reading) (prev : Bool) (c : ℕ),
      ∀ p ∈ assignAux prev c rs, 0 < p.2 → 0 < p.1.rain := by
  intro rs
  induction rs with
  | nil => intro prev c p hp; simp [assignAux] at hp
  | cons r rs ih =>
    intro prev c p hp hpos
    by_cases hwet : 0 < p.1.rain
    · exact hwet
    · have := assignAux_dry_zero (r :: rs) prev c p hp hwet
      omega

/-- Positive event ids are at least the running cumsum value. -/
theorem assignAux_pos_lb :
    ∀ (rs : List Reading) (prev : Bool) (c : ℕ),
      ∀ p ∈ assignAux prev c rs, 0 < p.2 → c ≤ p.2 := by
  intro rs
  induction rs with
  | nil => intro prev c p hp; simp [assignAux] at hp
  | cons r rs ih =>
    intro prev c p hp hpos
    simp only [assignAux, List.mem_cons] at hp
    rcases hp with hp | hp
    · subst hp
      cases hf : RainFlag r with
      | false => simp [hf] at hpos
      | true =>
        simp only [hf, if_true] at hpos ⊢
        cases prev <;> simp_all
    · have hc' : (if RainFlag r && !prev then c + 1 else c) ≥ c := by
        split <;> omega
      exact le_trans hc' (ih _ _ p hp hpos)

/-- After any dry row has been seen (prev = false) or once the cumsum is
    positive, every wet row receives a positive event id. -/
theorem assignAux_afterDry_pos :
    ∀ (rs : List Reading) (prev : Bool) (c : ℕ), (prev = false ∨ 1 ≤ c) →
      ∀ p ∈ assignAux prev c rs, 0 < p.1.rain → 0 < p.2 := by
  intro rs
  induction rs with
  | nil => intro prev c _ p hp; simp [assignAux] at hp
  | cons r rs ih =>
    intro prev c hstate p hp hwet
    simp only [assignAux, List.mem_cons] at hp
    rcases hp with hp | hp
    · subst hp
      have hf : RainFlag r = true := by
        simp only [RainFlag, decide_eq_true_eq]
        simpa using hwet
      simp only [hf, if_true]
      rcases hstate with hprev | hc
      · subst hprev; simp
      · split <;> omega
    · refine ih (RainFlag r) _ ?_ p hp hwet
      cases hf : RainFlag r with
      | false => exact Or.inl rfl
      | true =>
        rcases hstate with hprev | hc
        · subst hprev; right; simp
        · right; split <;> omega

/-- The diff/cumsum pass splits as: the leading wet run of the table all
    gets id 0 (diff().fillna(0) never marks the first row), and the rest
    is processed unchanged. -/
theorem assignEventIDs_split :
    ∀ rs : List Reading,
      assignEventIDs rs =
        (rs.takeWhile RainFlag).map (fun r => (r, 0)) ++
          assignAux true 0 (rs.dropWhile RainFlag) := by
  intro rs
  induction rs with
  | nil => simp [assignEventIDs, assignAux]
  | cons r rs ih =>
    cases hf : RainFlag r with
    | false =>
      simp [assignEventIDs, List.takeWhile_cons, List.dropWhile_cons, hf]
    | true =>
      have hstep :
          assignEventIDs (r :: rs) = (r, 0) :: assignEventIDs rs := by
        simp [assignEventIDs, assignAux, hf]
      rw [hstep, ih]
      simp [List.takeWhile_cons, List.dropWhile_cons, hf]

/-- The first element surviving dropWhile fails the predicate. -/
theorem dropWhile_head_false {α : Type} (p : α → Bool) :
    ∀ (l : List α) (a : α) (t : List α), l.dropWhile p = a :: t → p a = false := by
  intro l
  induction l with
  | nil => intro a t h; simp [List.dropWhile] at h
  | cons x xs ih =>
    intro a t h
    cases hp : p x with
    | false =>
      rw [List.dropWhile_cons, hp] at h
      simp at h
      rcases h with ⟨h1, -⟩
      rw [← h1]; exact hp
    | true =>
      rw [List.dropWhile_cons, hp] at h
      simp at h
      exact ih a t h

/-- On the part of the table after the leading wet run, an event id is
    positive exactly on wet rows. -/
theorem assignAux_tail_iff :
    ∀ rs : List Reading,
      ∀ p ∈ assignAux true 0 (rs.dropWhile RainFlag),
        (0 < p.2 ↔ 0 < p.1.rain) := by
  intro rs p hp
  cases hd : rs.dropWhile RainFlag with
  | nil => rw [hd] at hp; simp [assignAux] at hp
  | cons a t =>
    rw [hd] at hp
    have hfa : RainFlag a = false := dropWhile_head_false RainFlag rs a t hd
    have hstep : assignAux true 0 (a :: t) = (a, 0) :: assignAux false 0 t := by
      simp [assignAux, hfa]
    rw [hstep] at hp
    rcases List.mem_cons.mp hp with hp | hp
    · subst hp
      constructor
      · intro h; simp at h
      · intro h
        have : RainFlag a = true := by
          simp only [RainFlag, decide_eq_true_eq]; simpa using h
        rw [this] at hfa; cases hfa
    · constructor
      · exact fun h => assignAux_pos_wet t false 0 p hp h
      · exact fun h => assignAux_afterDry_pos t false 0 (Or.inl rfl) p hp h

/-- The positive event ids appear in nondecreasing order along the
    table (the cumsum never decreases). -/
theorem assignAux_pos_sorted :
    ∀ (rs : List Reading) (prev : Bool) (c : ℕ),
      (((assignAux prev c rs).map (fun p => p.2)).filter
        (fun n => decide (0 < n))).Sorted (fun a b => a ≤ b) := by
  intro rs
  induction rs with
  | nil => intro prev c; simp [assignAux]
  | cons r rs ih =>
    intro prev c
    cases hf : RainFlag r with
    | false =>
      have hstep :
          assignAux prev c (r :: rs) = (r, 0) :: assignAux false c rs := by
        simp [assignAux, hf]
      rw [hstep]
      simpa using ih false c
    | true =>
      have hstep :
          assignAux prev c (r :: rs) =
            (r, if RainFlag r && !prev then c + 1 else c) ::
              assignAux true (if RainFlag r && !prev then c + 1 else c) rs := by
        simp [assignAux, hf]
      rw [hstep]
      set c' := if RainFlag r && !prev then c + 1 else c with hc'
      by_cases hpos : 0 < c'
      · have hfilter :
            ((((r, c') :: assignAux true c' rs).map (fun p => p.2)).filter
              (fun n => decide (0 < n))) =
              c' :: (((assignAux true c' rs).map (fun p => p.2)).filter
                (fun n => decide (0 < n))) := by
          simp [hpos]
        rw [hfilter]
        refine List.sorted_cons.mpr ⟨?_, ih true c'⟩
        intro b hb
        rcases List.mem_filter.mp hb with ⟨hbmem, hbpos⟩
        rcases List.mem_map.mp hbmem with ⟨p, hpmem, hpeq⟩
        have : c' ≤ p.2 :=
          assignAux_pos_lb rs true c' p hpmem
            (by rw [hpeq]; exact of_decide_eq_true hbpos)
        omega
      · have hc0 : c' = 0 := by omega
        have hfilter :
            ((((r, c') :: assignAux true c' rs).map (fun p => p.2)).filter
              (fun n => decide (0 < n))) =
              (((assignAux true c' rs).map (fun p => p.2)).filter
                (fun n => decide (0 < n))) := by
          simp [hc0]
        rw [hfilter]
        exact ih true c'

/-- From a post-dry state, the rows carrying a positive id are exactly
    the wet rows, in order. -/
theorem assignAux_filter_wet :
    ∀ (rs : List Reading) (prev : Bool) (c : ℕ), (prev = false ∨ 1 ≤ c) →
      ((assignAux prev c rs).filter (fun p => decide (0 < p.2))).map
        (fun p => p.1) = rs.filter RainFlag := by
  intro rs
  induction rs with
  | nil => intro prev c _; simp [assignAux]
  | cons r rs ih =>
    intro prev c hstate
    cases hf : RainFlag r with
    | false =>
      have hstep :
          assignAux prev c (r :: rs) = (r, 0) :: assignAux false c rs := by
        simp [assignAux, hf]
      rw [hstep, List.filter_cons]
      simp only [decide_eq_true_eq]
      rw [if_neg (by omega)]
      rw [List.filter_cons, hf, if_neg (by simp)]
      exact ih false c (Or.inl rfl)
    | true =>
      have hstep :
          assignAux prev c (r :: rs) =
            (r, if RainFlag r && !prev then c + 1 else c) ::
              assignAux true (if RainFlag r && !prev then c + 1 else c) rs := by
        simp [assignAux, hf]
      rw [hstep]
      set c' := if RainFlag r && !prev then c + 1 else c with hc'
      have hc'pos : 1 ≤ c' := by
        rcases hstate with hprev | hc
        · subst hprev; simp [hc', hf]
        · rw [hc']; split <;> omega
      rw [List.filter_cons]
      simp only [decide_eq_true_eq]
      rw [if_pos (by omega)]
      rw [List.filter_cons, hf, if_pos (by simp)]
      simp only [List.map_cons]
      rw [ih true c' (Or.inr hc'pos)]

/-- The union of event member rows is exactly the wet samples of the
    sorted table that lie after its leading wet run. -/
theorem wetAssignedReadings_eq :
    ∀ rs : List Reading,
      wetAssignedReadings rs =
        ((sortReadings rs).dropWhile RainFlag).filter RainFlag := by
  intro rs
  unfold wetAssignedReadings
  rw [assignEventIDs_split (sortReadings rs)]
  rw [List.filter_append]
  have hpre :
      (((sortReadings rs).takeWhile RainFlag).map (fun r => (r, 0))).filter
        (fun p => decide (0 < p.2)) = [] := by
    rw [List.filter_eq_nil_iff]
    intro p hp
    rcases List.mem_map.mp hp with ⟨r, -, hr⟩
    simp [← hr]
  rw [hpre, List.nil_append]
  cases hd : (sortReadings rs).dropWhile RainFlag with
  | nil => simp [assignAux]
  | cons a t =>
    have hfa : RainFlag a = false :=
      dropWhile_head_false RainFlag (sortReadings rs) a t hd
    have hstep : assignAux true 0 (a :: t) = (a, 0) :: assignAux false 0 t := by
      simp [assignAux, hfa]
    rw [hstep, List.filter_cons]
    simp only [decide_eq_true_eq]
    rw [if_neg (by omega)]
    rw [List.filter_cons, hfa, if_neg (by simp)]
    exact assignAux_filter_wet t false 0 (Or.inl rfl)

/-- Every key of the event groupby comes from a row with that station
    and that (positive) event id. -/
theorem eventKey_origin :
    ∀ (l : List (Reading × ℕ)) (k : ℕ × ℕ),
      k ∈ dedupFirst ((l.filter (fun p => decide (0 < p.2))).map
        (fun p => (p.1.station, p.2))) →
      ∃ p ∈ l, p.1.station = k.1 ∧ p.2 = k.2 ∧ 0 < p.2 := by
  intro l k hk
  rw [mem_dedupFirst] at hk
  rcases List.mem_map.mp hk with ⟨p, hpmem, hpeq⟩
  rcases List.mem_filter.mp hpmem with ⟨hpl, hppos⟩
  refine ⟨p, hpl, ?_, ?_, of_decide_eq_true hppos⟩
  · rw [← hpeq]
  · rw [← hpeq]

/-- Members of an event group match the group key. -/
theorem eventGroup_mem :
    ∀ (l : List (Reading × ℕ)) (k : ℕ × ℕ) (r : Reading),
      r ∈ eventGroup l k →
      ∃ p ∈ l, p.1 = r ∧ p.1.station = k.1 ∧ p.2 = k.2 := by
  intro l k r hr
  rcases List.mem_map.mp hr with ⟨p, hpmem, hpeq⟩
  rcases List.mem_filter.mp hpmem with ⟨hpl, hpk⟩
  have hk := of_decide_eq_true hpk
  exact ⟨p, hpl, hpeq, hk.1, hk.2⟩

/-- Every row of the event table is the aggregation of a nonempty group
    of wet rows, keyed by its own (station, eventID) pair. -/
theorem eventTable_elim :
    ∀ (rs : List Reading) (ev : Event), ev ∈ eventTable rs →
      ev = mkEvent (assignEventIDs (sortReadings rs)) (ev.station, ev.eventID) ∧
      0 < ev.eventID ∧
      eventGroup (assignEventIDs (sortReadings rs)) (ev.station, ev.eventID) ≠ [] ∧
      ∀ r ∈ eventGroup (assignEventIDs (sortReadings rs))
        (ev.station, ev.eventID), 0 < r.rain := by
  intro rs ev hev
  unfold eventTable at hev
  rcases List.mem_map.mp hev with ⟨k, hkmem, hkeq⟩
  rcases eventKey_origin _ k hkmem with ⟨p, hpl, hpst, hpid, hppos⟩
  have hkfst : ev.station = k.1 := by rw [← hkeq]; rfl
  have hksnd : ev.eventID = k.2 := by rw [← hkeq]; rfl
  have hkpair : (ev.station, ev.eventID) = k := by
    rw [hkfst, hksnd]
  have hpgrp : p.1 ∈ eventGroup (assignEventIDs (sortReadings rs)) k := by
    unfold eventGroup
    refine List.mem_map.mpr ⟨p, ?_, rfl⟩
    refine List.mem_filter.mpr ⟨hpl, ?_⟩
    exact decide_eq_true (And.intro hpst hpid)
  refine ⟨by rw [hkpair, ← hkeq], ?_, ?_, ?_⟩
  · rw [hksnd, ← hpid]; exact hppos
  · rw [hkpair]
    intro hnil
    rw [hnil] at hpgrp
    exact List.not_mem_nil p.1 hpgrp
  · rw [hkpair]
    intro r hr
    rcases eventGroup_mem _ k r hr with ⟨q, hql, hqeq, -, hqid⟩
    have hqpos : 0 < q.2 := by rw [hqid, ← hpid]; exact hppos
    have := assignAux_pos_wet (sortReadings rs) true 0 q hql hqpos
    rw [hqeq] at this
    exact this

/-- Every row of the daily table is the aggregation of the group keyed
    by its own (station, date) pair, and that group is nonempty. -/
theorem dailyTable_elim :
    ∀ (rs : List Reading) (d : DailyRow), d ∈ dailyTable rs →
      d = mkDaily rs (d.station, d.date) ∧
      ∃ r ∈ rs, r.station = d.station ∧ dayOf r = d.date := by
  intro rs d hd
  unfold dailyTable at hd
  rcases List.mem_map.mp hd with ⟨k, hkmem, hkeq⟩
  rw [mem_dedupFirst] at hkmem
  rcases List.mem_map.mp hkmem with ⟨r, hrmem, hrk⟩
  have hkfst : d.station = k.1 := by rw [← hkeq]; rfl
  have hksnd : d.date = k.2 := by rw [← hkeq]; rfl
  have hkpair : (d.station, d.date) = k := by rw [hkfst, hksnd]
  constructor
  · rw [hkpair, ← hkeq]
  · refine ⟨r, hrmem, ?_, ?_⟩
    · rw [hkfst, ← hrk]
    · rw [hksnd, ← hrk]

/-- A boolean filter and its negation split a list's length. -/
theorem length_filter_split {α : Type} (p : α → Bool) :
    ∀ l : List α,
      (l.filter p).length + (l.filter (fun a => !(p a))).length = l.length := by
  intro l
  induction l with
  | nil => simp
  | cons a as ih =>
    cases hp : p a <;> simp [List.filter_cons, hp] <;> omega

/-- Sums of pointwise sums split. -/
theorem sum_map_add {κ : Type} (g h : κ → ℕ) :
    ∀ K : List κ, (K.map (fun k => g k + h k)).sum = (K.map g).sum + (K.map h).sum := by
  intro K
  induction K with
  | nil => simp
  | cons k K' ih =>
    simp only [List.map_cons, List.sum_cons, ih]
    omega

/-- The indicator of a key absent from a list sums to 0. -/
theorem indicator_sum_zero {κ : Type} [DecidableEq κ] (x : κ) :
    ∀ K : List κ, x ∉ K →
      (K.map (fun k => if x = k then 1 else 0)).sum = 0 := by
  intro K
  induction K with
  | nil => intro _; simp
  | cons k K' ih =>
    intro hx
    have hxk : ¬(x = k) := fun h => hx (h ▸ List.mem_cons_self k K')
    have hxK' : x ∉ K' := fun h => hx (List.mem_cons_of_mem k h)
    simp only [List.map_cons, List.sum_cons, if_neg hxk]
    rw [Nat.zero_add]
    exact ih hxK'

/-- The indicator of a key occurring in a nodup list sums to 1. -/
theorem indicator_sum_one {κ : Type} [DecidableEq κ] (x : κ) :
    ∀ K : List κ, K.Nodup → x ∈ K →
      (K.map (fun k => if x = k then 1 else 0)).sum = 1 := by
  intro K
  induction K with
  | nil => intro _ hx; simp at hx
  | cons k K' ih =>
    intro hnd hx
    have hknot : k ∉ K' := (List.nodup_cons.mp hnd).1
    by_cases hxk : x = k
    · subst hxk
      simp only [List.map_cons, List.sum_cons, if_pos rfl]
      rw [indicator_sum_zero x K' hknot]
      simp
    · have hxK' : x ∈ K' := by
        rcases List.mem_cons.mp hx with h | h
        · exact absurd h hxk
        · exact h
      simp only [List.map_cons, List.sum_cons, if_neg hxk]
      rw [Nat.zero_add]
      exact ih (List.nodup_cons.mp hnd).2 hxK'

/-- Filtering a cons adds the head's indicator to the length. -/
theorem length_filter_cons {α : Type} (p : α → Bool) (a : α) (l : List α) :
    ((a :: l).filter p).length =
      (l.filter p).length + (if p a = true then 1 else 0) := by
  cases hp : p a <;> simp [List.filter_cons, hp]

/-- Per-key group sizes over a nodup covering key list sum to the list's
    length: a groupby partitions its input. -/
theorem sum_counts {α κ : Type} [DecidableEq κ] (f : α → κ) :
    ∀ (l : List α) (K : List κ), K.Nodup → (∀ a ∈ l, f a ∈ K) →
      (K.map (fun k => (l.filter (fun a => decide (f a = k))).length)).sum =
        l.length := by
  intro l
  induction l with
  | nil =>
    intro K _ _
    have : (K.map (fun k => ((List.nil : List α).filter
        (fun a => decide (f a = k))).length)) = K.map (fun _ => 0) := by
      simp
    rw [this]
    induction K with
    | nil => simp
    | cons k K' ihk => simp [ihk]
  | cons a l ih =>
    intro K hnd hcov
    have hstep :
        (K.map (fun k => (((a :: l).filter (fun x => decide (f x = k)))).length)) =
          K.map (fun k => (l.filter (fun x => decide (f x = k))).length +
            (if f a = k then 1 else 0)) := by
      refine List.map_congr_left ?_
      intro k _
      rw [length_filter_cons (fun x => decide (f x = k)) a l]
      by_cases h : f a = k <;> simp [h]
    rw [hstep]
    rw [sum_map_add (fun k => (l.filter (fun x => decide (f x = k))).length)
      (fun k => if f a = k then 1 else 0) K]
    have hcovl : ∀ x ∈ l, f x ∈ K :=
      fun x hx => hcov x (List.mem_cons_of_mem a hx)
    rw [ih K hnd hcovl]
    rw [indicator_sum_one (f a) K hnd (hcov a (List.mem_cons_self a l))]
    simp

/-- A per-key rain-day count over the keys of a groupby sums to the
    total number of rain days. -/
theorem grouped_rainday_sum {κ : Type} [DecidableEq κ] (g : DailyRow → κ)
    (ds : List DailyRow) :
    ((dedupFirst (ds.map g)).map (fun k =>
      (ds.filter (fun d => decide (g d = k) && RainDay d)).length)).sum =
      (ds.filter RainDay).length := by
  have hmap :
      (dedupFirst (ds.map g)).map (fun k =>
        (ds.filter (fun d => decide (g d = k) && RainDay d)).length) =
        (dedupFirst (ds.map g)).map (fun k =>
          ((ds.filter RainDay).filter (fun d => decide (g d = k))).length) := by
    refine List.map_congr_left ?_
    intro k _
    rw [List.filter_filter]
  rw [hmap]
  refine sum_counts g (ds.filter RainDay) (dedupFirst (ds.map g))
    (nodup_dedupFirst _) ?_
  intro d hd
  rcases List.mem_filter.mp hd with ⟨hds, -⟩
  exact (mem_dedupFirst _ _).mpr (List.mem_map.mpr ⟨d, hds, rfl⟩)

/- ===================================================================
   Part 7: the claims
   =================================================================== -/

/-- Claim C1 (amended).  Event identifiers are assigned by a running
    count of dry-to-wet transitions over the whole station-sorted
    table: dry samples always carry id 0 (no event id); every wet
    sample in the table's leading wet run also carries id 0, because
    RainFlag.diff().fillna(0) never marks the first row; every wet
    sample after the leading run carries a positive id; and the
    positive ids appear in nondecreasing encounter order.  Ids are
    global across the concatenated table, not restarted at 1 per
    station. -/
theorem eventID_assignment_characterization :
    ∀ rs : List Reading,
      (∀ p ∈ assignEventIDs (sortReadings rs), ¬(0 < p.1.rain) → p.2 = 0) ∧
      (assignEventIDs (sortReadings rs) =
        ((sortReadings rs).takeWhile RainFlag).map (fun r => (r, 0)) ++
          assignAux true 0 ((sortReadings rs).dropWhile RainFlag)) ∧
      (∀ p ∈ assignAux true 0 ((sortReadings rs).dropWhile RainFlag),
        0 < p.1.rain → 0 < p.2) ∧
      (((assignEventIDs (sortReadings rs)).map (fun p => p.2)).filter
        (fun n => decide (0 < n))).Sorted (fun a b => a ≤ b) := by
  intro rs
  refine ⟨?_, assignEventIDs_split (sortReadings rs), ?_, ?_⟩
  · exact fun p hp => assignAux_dry_zero (sortReadings rs) true 0 p hp
  · exact fun p hp hw => (assignAux_tail_iff (sortReadings rs) p hp).mpr hw
  · exact assignAux_pos_sorted (sortReadings rs) true 0

/-- Claim C1 witness: a concrete dry sample has no event id. -/
theorem eventID_assignment_characterization_witness :
    ((⟨0, 5, 0⟩ : Reading), 0) ∈ assignEventIDs (sortReadings [⟨0, 5, 0⟩]) ∧
    ((⟨0, 5, 0⟩ : Reading), (0 : ℕ)).2 = 0 :=
  ⟨by decide,
    (eventID_assignment_characterization [⟨0, 5, 0⟩]).1 _ (by decide) (by decide)⟩

/-- Claim C1 counterexample.  On a two-station input where station 0
    begins wet, the event table drops station 0's leading wet run
    entirely (it is in no event even though it is wet), and station 1's
    single event carries id 2, not 1: ids neither restart per station
    nor record a leading wet run as event 1. -/
theorem eventID_not_per_station_cex :
    eventTable exC1 =
      [⟨0, 1, 2, 2, 1, 2, 2, 2⟩, ⟨1, 2, 1, 1, 1, 3, 3, 3⟩] ∧
    ((eventTable exC1).filter (fun e => decide (e.station = 1))).map
      (fun e => e.eventID) = [2] ∧
    0 < (⟨0, 0, 1⟩ : Reading).rain ∧
    (⟨0, 0, 1⟩ : Reading) ∉ wetAssignedReadings exC1 := by
  refine ⟨?_, ?_, by decide, by decide⟩
  · norm_num [eventTable, assignEventIDs, assignAux, sortReadings,
      insertReading, readingLE, RainFlag, dedupFirst, eventGroup, mkEvent,
      nmin, nmax, qsum, qmax, exC1]
  · norm_num [eventTable, assignEventIDs, assignAux, sortReadings,
      insertReading, readingLE, RainFlag, dedupFirst, eventGroup, mkEvent,
      nmin, nmax, qsum, qmax, exC1, List.filter_cons]

/-- Claim C2 (amended).  The union of the event member rows equals the
    wet samples of the sorted table that lie after its leading wet run
    (a table-leading wet run is excluded by the EventID > 0 filter); a
    row never belongs to groups with two different event ids; and no
    dry sample belongs to any event group. -/
theorem segmentation_covers_wet_after_leading_run :
    ∀ rs : List Reading,
      wetAssignedReadings rs =
        ((sortReadings rs).dropWhile RainFlag).filter RainFlag ∧
      (∀ (st e₁ e₂ : ℕ) (p : Reading × ℕ), e₁ ≠ e₂ →
        p ∈ (assignEventIDs (sortReadings rs)).filter
          (fun q => decide (q.1.station = st ∧ q.2 = e₁)) →
        p ∉ (assignEventIDs (sortReadings rs)).filter
          (fun q => decide (q.1.station = st ∧ q.2 = e₂))) ∧
      (∀ st e : ℕ, 0 < e →
        ∀ r ∈ eventGroup (assignEventIDs (sortReadings rs)) (st, e),
          0 < r.rain) := by
  intro rs
  refine ⟨wetAssignedReadings_eq rs, ?_, ?_⟩
  · intro st e₁ e₂ p hne h1 h2
    rcases List.mem_filter.mp h1 with ⟨-, hk1⟩
    rcases List.mem_filter.mp h2 with ⟨-, hk2⟩
    have he1 := (of_decide_eq_true hk1).2
    have he2 := (of_decide_eq_true hk2).2
    exact hne (he1 ▸ he2 ▸ rfl)
  · intro st e hepos r hr
    rcases eventGroup_mem _ (st, e) r hr with ⟨q, hql, hqeq, -, hqid⟩
    have hqpos : 0 < q.2 := by rw [hqid]; exact hepos
    have := assignAux_pos_wet (sortReadings rs) true 0 q hql hqpos
    rw [hqeq] at this
    exact this

/-- Claim C2 witness: a concrete wet sample after a dry sample belongs
    to event 1 and is wet. -/
theorem segmentation_covers_wet_witness :
    (0 : ℕ) < 1 ∧
    (⟨0, 1, 2⟩ : Reading) ∈
      eventGroup (assignEventIDs (sortReadings [⟨0, 0, 0⟩, ⟨0, 1, 2⟩])) (0, 1) ∧
    0 < (⟨0, 1, 2⟩ : Reading).rain :=
  ⟨by decide, by decide,
    (segmentation_covers_wet_after_leading_run [⟨0, 0, 0⟩, ⟨0, 1, 2⟩]).2.2
      0 1 (by decide) _ (by decide)⟩

/-- Claim C2 counterexample.  For a station whose series begins wet,
    the leading wet sample is wet but belongs to no event: the union of
    event member sets is strictly smaller than the set of wet
    samples. -/
theorem leading_wet_run_unsegmented_cex :
    eventTable exC2 = [⟨0, 1, 2, 2, 1, 3, 3, 3⟩] ∧
    0 < (⟨0, 0, 2⟩ : Reading).rain ∧
    (⟨0, 0, 2⟩ : Reading) ∈ exC2 ∧
    (⟨0, 0, 2⟩ : Reading) ∉ wetAssignedReadings exC2 := by
  refine ⟨?_, by decide, by decide, by decide⟩
  norm_num [eventTable, assignEventIDs, assignAux, sortReadings,
    insertReading, readingLE, RainFlag, dedupFirst, eventGroup, mkEvent,
    nmin, nmax, qsum, qmax, exC2]

/-- Claim C3 (amended).  In the dashboard variant every event's
    Duration_hrs equals its member-sample count; in the single-station
    app variant duration_hours equals the elapsed hours between the
    first and last member timestamps plus one, which can differ from
    the member count. -/
theorem duration_semantics :
    (∀ (rs : List Reading), ∀ ev ∈ eventTable rs,
      ev.durationHrs =
        (eventGroup (assignEventIDs (sortReadings rs))
          (ev.station, ev.eventID)).length) ∧
    (∀ (thr : ℚ) (rs : List Sample), ∀ ev ∈ appEvents thr rs,
      ev.durationHours = ev.endTime - ev.startTime + 1) := by
  constructor
  · intro rs ev hev
    conv_lhs => rw [(eventTable_elim rs ev hev).1]
    rfl
  · intro thr rs ev hev
    unfold appEvents at hev
    rcases List.mem_map.mp hev with ⟨e, -, heq⟩
    rw [← heq]

/-- Claim C3 witness: a concrete dashboard event's duration equals its
    member count. -/
theorem duration_semantics_witness :
    (⟨0, 1, 2, 3, 2, 5, 3, 5/2⟩ : Event) ∈ eventTable ex9 ∧
    (⟨0, 1, 2, 3, 2, 5, 3, 5/2⟩ : Event).durationHrs =
      (eventGroup (assignEventIDs (sortReadings ex9)) (0, 1)).length := by
  have hmem : (⟨0, 1, 2, 3, 2, 5, 3, 5/2⟩ : Event) ∈ eventTable ex9 := by
    norm_num [eventTable, assignEventIDs, assignAux, sortReadings,
      insertReading, readingLE, RainFlag, dedupFirst, eventGroup, mkEvent,
      nmin, nmax, qsum, qmax, ex9]
  exact ⟨hmem, duration_semantics.1 ex9 _ hmem⟩

/-- Claim C3 counterexample.  In the app variant, two wet samples five
    hours apart form one contiguous two-row run, yet its
    duration_hours is 6 (elapsed + 1), not the member count 2. -/
theorem app_duration_not_member_count_cex :
    appEvents 1 ex3 = [⟨0, 5, 5, 6⟩] ∧
    (appEventMembers 1 ex3 0).length = 2 ∧
    (6 : ℕ) ≠ 2 := by
  refine ⟨?_, by decide, by decide⟩
  norm_num [appEvents, appEventMembers, appAssign, appAssignAux, sortSamples,
    insertSample, rain_event, dedupFirst, nmin, nmax, qsum, ex3]

/-- Claim C4 (amended).  Every daily row arises from a nonempty
    (station, date) group and carries the group's sum, maximum, count
    of strictly positive samples, and the guarded intensity; no
    minimum-positive statistic is computed and no Min_Hourly_Rain
    column exists. -/
theorem daily_reductions :
    ∀ (rs : List Reading), ∀ d ∈ dailyTable rs,
      (∃ r ∈ rs, r.station = d.station ∧ dayOf r = d.date) ∧
      d.dailyRainfall =
        qsum ((dailyGroup rs (d.station, d.date)).map (fun r => r.rain)) ∧
      d.maxHourlyRain =
        qmax ((dailyGroup rs (d.station, d.date)).map (fun r => r.rain)) ∧
      d.hoursRained =
        (((dailyGroup rs (d.station, d.date)).map (fun r => r.rain)).filter
          (fun x => decide (0 < x))).length ∧
      d.dailyIntensity =
        (if 0 < d.hoursRained then d.dailyRainfall / (d.hoursRained : ℚ)
          else 0) := by
  intro rs d hd
  obtain ⟨h1, h2⟩ := dailyTable_elim rs d hd
  refine ⟨h2, ?_, ?_, ?_, ?_⟩
  · conv_lhs => rw [h1]
    rfl
  · conv_lhs => rw [h1]
    rfl
  · conv_lhs => rw [h1]
    rfl
  · conv_lhs => rw [h1]
    conv_rhs => rw [h1]
    rfl

/-- Claim C4 witness: a concrete one-reading day carries the group's
    sum. -/
theorem daily_reductions_witness :
    (⟨0, 0, 1, 1, 1, 1⟩ : DailyRow) ∈ dailyTable [(⟨0, 0, 1⟩ : Reading)] ∧
    (⟨0, 0, 1, 1, 1, 1⟩ : DailyRow).dailyRainfall =
      qsum ((dailyGroup [(⟨0, 0, 1⟩ : Reading)] (0, 0)).map
        (fun r => r.rain)) := by
  have hmem : (⟨0, 0, 1, 1, 1, 1⟩ : DailyRow) ∈
      dailyTable [(⟨0, 0, 1⟩ : Reading)] := by
    norm_num [dailyTable, dailyGroup, mkDaily, dayOf, dedupFirst, qsum, qmax]
  exact ⟨hmem, (daily_reductions [⟨0, 0, 1⟩] _ hmem).2.1⟩

/-- Claim C4 counterexample.  Two single-day inputs whose groups have
    the same sum, maximum and positive count but different minimum
    positive values produce identical daily tables, so the exported
    daily summary cannot contain a column holding the spec's minimum
    strictly-positive value. -/
theorem daily_min_positive_cex :
    dailyTable exA = dailyTable exB ∧
    specMinPositive (exA.map (fun r => r.rain)) = 1 ∧
    specMinPositive (exB.map (fun r => r.rain)) = 2 := by
  refine ⟨?_, by decide, by decide⟩
  norm_num [dailyTable, dailyGroup, mkDaily, dayOf, dedupFirst, qsum, qmax,
    exA, exB]

/-- Claim C5.  Every daily group with zero wet hours gets intensity 0
    from the guarded lambda of lines 151-153, and no event row ever has
    duration 0 (event groups are nonempty), so the unguarded division
    of line 168 never sees a zero denominator; with both facts, every
    zero-denominator ratio the engine actually computes yields 0 and no
    exception is raised. -/
theorem zero_denominator_guards :
    ∀ rs : List Reading,
      (∀ d ∈ dailyTable rs, d.hoursRained = 0 → d.dailyIntensity = 0) ∧
      (∀ ev ∈ eventTable rs, ev.durationHrs ≠ 0) := by
  intro rs
  constructor
  · intro d hd h0
    obtain ⟨h1, -⟩ := dailyTable_elim rs d hd
    rw [h1] at h0 ⊢
    have hlen :
        (((dailyGroup rs (d.station, d.date)).map (fun r => r.rain)).filter
          (fun x => decide (0 < x))).length = 0 := h0
    show (if 0 <
        (((dailyGroup rs (d.station, d.date)).map (fun r => r.rain)).filter
          (fun x => decide (0 < x))).length then
        qsum ((dailyGroup rs (d.station, d.date)).map (fun r => r.rain)) /
          ((((dailyGroup rs (d.station, d.date)).map (fun r => r.rain)).filter
            (fun x => decide (0 < x))).length : ℚ)
      else 0) = 0
    rw [hlen]
    simp
  · intro ev hev
    obtain ⟨h1, -, hne, -⟩ := eventTable_elim rs ev hev
    have hdur : ev.durationHrs =
        (eventGroup (assignEventIDs (sortReadings rs))
          (ev.station, ev.eventID)).length := by
      conv_lhs => rw [h1]
      rfl
    rw [hdur]
    intro hzero
    exact hne (List.length_eq_zero.mp hzero)

/-- Claim C5 witness: a concrete all-dry day has zero wet hours and
    intensity 0. -/
theorem zero_denominator_guards_witness :
    (⟨0, 0, 0, 0, 0, 0⟩ : DailyRow) ∈ dailyTable [(⟨0, 0, 0⟩ : Reading)] ∧
    (⟨0, 0, 0, 0, 0, 0⟩ : DailyRow).hoursRained = 0 ∧
    (⟨0, 0, 0, 0, 0, 0⟩ : DailyRow).dailyIntensity = 0 := by
  have hmem : (⟨0, 0, 0, 0, 0, 0⟩ : DailyRow) ∈
      dailyTable [(⟨0, 0, 0⟩ : Reading)] := by
    norm_num [dailyTable, dailyGroup, mkDaily, dayOf, dedupFirst, qsum, qmax]
  exact ⟨hmem, rfl, (zero_denominator_guards [⟨0, 0, 0⟩]).1 _ hmem rfl⟩

/-- Claim C6 (amended).  The station analysis computes per-month and
    per-season rainy-day counts from the RainDay flags of the
    daily table, and these counts each partition the station's total
    number of rain days; no longest-wet-spell statistic is computed or
    exported. -/
theorem rainy_day_counts_partition :
    ∀ (st : ℕ) (rs : List Reading),
      ((monthlyRainyDays st rs).map (fun p => p.2)).sum =
        ((stationDaily st rs).filter RainDay).length ∧
      ((seasonalRainyDays st rs).map (fun p => p.2)).sum =
        ((stationDaily st rs).filter RainDay).length := by
  intro st rs
  constructor
  · simp only [monthlyRainyDays, List.map_map]
    exact grouped_rainday_sum (fun d => monthOf d.date) (stationDaily st rs)
  · simp only [seasonalRainyDays, List.map_map]
    exact grouped_rainday_sum (fun d => get_season (monthOf d.date))
      (stationDaily st rs)

/-- Claim C6 counterexample.  Two three-day inputs with rain-day
    patterns [1,0,1] and [1,1,0] have identical monthly and seasonal
    rainy-day tables — the station analysis' only rainy-day outputs —
    yet the spec's longest wet spell differs (1 versus 2): no output of
    the engine holds that statistic. -/
theorem wet_spell_absent_cex :
    monthlyRainyDays 0 exW1 = monthlyRainyDays 0 exW2 ∧
    seasonalRainyDays 0 exW1 = seasonalRainyDays 0 exW2 ∧
    specLongestWetSpell ((dailyTable exW1).map RainDay) = 1 ∧
    specLongestWetSpell ((dailyTable exW2).map RainDay) = 2 := by
  refine ⟨?_, ?_, ?_, ?_⟩
  · norm_num [monthlyRainyDays, stationDaily, dailyTable, dailyGroup, mkDaily,
      dayOf, dedupFirst, qsum, qmax, RainDay, monthOf, exW1, exW2]
  · norm_num [seasonalRainyDays, stationDaily, dailyTable, dailyGroup, mkDaily,
      dayOf, dedupFirst, qsum, qmax, RainDay, monthOf, get_season, exW1, exW2]
  · norm_num [specLongestWetSpell, dailyTable, dailyGroup, mkDaily, dayOf,
      dedupFirst, qsum, qmax, RainDay, exW1]
  · norm_num [specLongestWetSpell, dailyTable, dailyGroup, mkDaily, dayOf,
      dedupFirst, qsum, qmax, RainDay, exW2]

/-- Claim C7.  A missing station or timestamp column aborts the run
    before any table is built (modelled as the SchemaError result, per
    the explicit date/hour check with st.stop in rainfall_app.py and
    the uncaught KeyError on column access otherwise), and no partial
    tables are emitted; when both columns are present the run always
    succeeds, whatever row-level timestamp or rainfall problems the
    rows have. -/
theorem schema_errors_fatal_row_errors_not :
    ∀ csv : RawCSV,
      ((csv.hasStationCol = false ∨ csv.hasTimeCol = false) →
        runPipeline csv = Except.error SchemaError.missingColumn) ∧
      (csv.hasStationCol = true → csv.hasTimeCol = true →
        runPipeline csv =
          Except.ok (dailyTable (parsedReadings csv),
            eventTable (parsedReadings csv))) := by
  intro csv
  constructor
  · intro h
    unfold runPipeline normalize
    rcases h with h | h
    · rw [h]
      cases htc : csv.hasTimeCol <;> simp [Except.map]
    · rw [h]
      cases htc : csv.hasTimeCol <;> simp [Except.map]
  · intro hs ht
    unfold runPipeline normalize
    rw [hs, ht]
    simp [Except.map]

/-- Claim C7 witness: a CSV missing the station column fails with the
    schema error and yields no tables. -/
theorem schema_errors_fatal_witness :
    ((⟨false, true, []⟩ : RawCSV).hasStationCol = false ∨
      (⟨false, true, []⟩ : RawCSV).hasTimeCol = false) ∧
    runPipeline ⟨false, true, []⟩ =
      Except.error SchemaError.missingColumn :=
  ⟨Or.inl rfl,
    (schema_errors_fatal_row_errors_not ⟨false, true, []⟩).1 (Or.inl rfl)⟩

/-- Claim C8 (amended).  The gap-hours value read from the slider is
    ignored by segmentation and aggregation: every two supplied gap
    values produce identical event tables, and a single dry sample
    splits adjacent wet runs even when the supplied gap (6 hours) would
    bridge it. -/
theorem gap_hours_ignored :
    (∀ (g₁ g₂ : ℕ) (thr : ℚ) (rs : List Sample),
      appEventsWithGap g₁ thr rs = appEventsWithGap g₂ thr rs) ∧
    appEventsWithGap 6 1 exGap = [⟨0, 0, 2, 1⟩, ⟨2, 2, 3, 1⟩] := by
  constructor
  · intro g₁ g₂ thr rs
    rfl
  · norm_num [appEventsWithGap, appEvents, appEventMembers, appAssign,
      appAssignAux, sortSamples, insertSample, rain_event, dedupFirst, nmin,
      nmax, qsum, exGap]

/-- Claim C8 counterexample: there is no input series and pair of gap
    values on which the event tables differ — the negation of the
    claimed configuration sensitivity. -/
theorem gap_hours_sensitivity_cex :
    ¬ ∃ (g₁ g₂ : ℕ) (thr : ℚ) (rs : List Sample),
      appEventsWithGap g₁ thr rs ≠ appEventsWithGap g₂ thr rs := by
  rintro ⟨g₁, g₂, thr, rs, h⟩
  exact h rfl

/-- Claim C9 (amended).  On the spec's scenario the event table is
    exactly the three enumerated events, and the daily aggregate for
    the date has total 13, but Hours_Rained is 6 (the samples at hours
    2, 3, 5, 8, 9, 10 are positive) and Daily_Intensity is 13/6. -/
theorem scenario_events_daily :
    eventTable ex9 =
      [⟨0, 1, 2, 3, 2, 5, 3, 5/2⟩, ⟨0, 2, 5, 5, 1, 5, 5, 5⟩,
        ⟨0, 3, 8, 10, 3, 3, 1, 1⟩] ∧
    dailyTable ex9 = [⟨0, 0, 13, 5, 6, 13/6⟩] := by
  constructor
  · norm_num [eventTable, assignEventIDs, assignAux, sortReadings,
      insertReading, readingLE, RainFlag, dedupFirst, eventGroup, mkEvent,
      nmin, nmax, qsum, qmax, ex9]
  · norm_num [dailyTable, dailyGroup, mkDaily, dayOf, dedupFirst, qsum, qmax,
      ex9]

/-- Claim C9 counterexample.  On the spec's scenario the daily
    aggregate has Hours_Rained 6 and Daily_Intensity 13/6, not the
    claimed 5 and 13/5 = 2.6. -/
theorem scenario_daily_cex :
    dailyTable ex9 = [⟨0, 0, 13, 5, 6, 13/6⟩] ∧
    (6 : ℕ) ≠ 5 ∧
    (13/6 : ℚ) ≠ 13/5 := by
  refine ⟨?_, by decide, by norm_num⟩
  norm_num [dailyTable, dailyGroup, mkDaily, dayOf, dedupFirst, qsum, qmax,
    ex9]

/-- Claim C10.  Every row of the event table aggregates a nonempty
    group of wet samples: its Duration_hrs is at least 1, its
    Total_Rain is strictly positive, and therefore the unguarded
    Average_Intensity = Total_Rain / Duration_hrs is strictly positive
    with a nonzero denominator. -/
theorem event_rows_nonempty_positive :
    ∀ (rs : List Reading), ∀ ev ∈ eventTable rs,
      1 ≤ ev.durationHrs ∧ 0 < ev.totalRain ∧ 0 < ev.averageIntensity := by
  intro rs ev hev
  obtain ⟨h1, -, hne, hwet⟩ := eventTable_elim rs ev hev
  have hdur : ev.durationHrs =
      (eventGroup (assignEventIDs (sortReadings rs))
        (ev.station, ev.eventID)).length := by
    conv_lhs => rw [h1]
    rfl
  have htot : ev.totalRain =
      qsum ((eventGroup (assignEventIDs (sortReadings rs))
        (ev.station, ev.eventID)).map (fun r => r.rain)) := by
    conv_lhs => rw [h1]
    rfl
  have havg : ev.averageIntensity =
      qsum ((eventGroup (assignEventIDs (sortReadings rs))
        (ev.station, ev.eventID)).map (fun r => r.rain)) /
        (((eventGroup (assignEventIDs (sortReadings rs))
          (ev.station, ev.eventID)).length : ℕ) : ℚ) := by
    conv_lhs => rw [h1]
    rfl
  have hlen : 0 < (eventGroup (assignEventIDs (sortReadings rs))
      (ev.station, ev.eventID)).length := List.length_pos.mpr hne
  have hmapne : (eventGroup (assignEventIDs (sortReadings rs))
      (ev.station, ev.eventID)).map (fun r => r.rain) ≠ [] := by
    intro h
    exact hne (List.map_eq_nil_iff.mp h)
  have hmappos : ∀ x ∈ (eventGroup (assignEventIDs (sortReadings rs))
      (ev.station, ev.eventID)).map (fun r => r.rain), 0 < x := by
    intro x hx
    rcases List.mem_map.mp hx with ⟨r, hr, hxe⟩
    rw [← hxe]
    exact hwet r hr
  have hq := qsum_pos _ hmapne hmappos
  refine ⟨?_, ?_, ?_⟩
  · rw [hdur]
    omega
  · rw [htot]
    exact hq
  · rw [havg]
    exact div_pos hq (by exact_mod_cast hlen)

/-- Claim C10 witness: a concrete event has duration 1, positive total
    and positive average intensity. -/
theorem event_rows_nonempty_positive_witness :
    (⟨0, 1, 1, 1, 1, 7, 7, 7⟩ : Event) ∈
      eventTable [(⟨0, 0, 0⟩ : Reading), ⟨0, 1, 7⟩] ∧
    1 ≤ (⟨0, 1, 1, 1, 1, 7, 7, 7⟩ : Event).durationHrs ∧
    0 < (⟨0, 1, 1, 1, 1, 7, 7, 7⟩ : Event).totalRain ∧
    0 < (⟨0, 1, 1, 1, 1, 7, 7, 7⟩ : Event).averageIntensity := by
  have hmem : (⟨0, 1, 1, 1, 1, 7, 7, 7⟩ : Event) ∈
      eventTable [(⟨0, 0, 0⟩ : Reading), ⟨0, 1, 7⟩] := by
    norm_num [eventTable, assignEventIDs, assignAux, sortReadings,
      insertReading, readingLE, RainFlag, dedupFirst, eventGroup, mkEvent,
      nmin, nmax, qsum, qmax]
  exact ⟨hmem, event_rows_nonempty_positive _ _ hmem⟩

end Rainfall
